import Mathlib

/-!
Verification of the telegram-quiz session state machine (`src/app.py`).

The embedding below translates the per-session state machine of the webhook
handler into pure Lean functions.  A session is one participant's mutable
record (the Python dict created by `ensure_session`); input events are the
three shapes the webhook dispatches on (a button callback, a text message, a
message carrying a photo).  Wall-clock reads (`time.time()`) are passed in
explicitly as an integer `now` parameter.  Network sends are modelled, where
a claim needs them, as lists of output tags emitted alongside the new state;
display-only content (question text, intro, images, explanation text) does
not influence any state transition and is omitted from the challenge record.
-/

/-- Default value of the `HINT_PENALTY_SECS` environment variable (`app.py`
line 49): the fixed penalty quantum added on the first hint use per
question. -/
def HINT_PENALTY_SECS : Nat := 20

/-- Callback payload of the hint button (`HINT_BUTTON_DATA`). -/
def HINT_BUTTON_DATA : String := "__HINT__"

/-- Callback payload of the advance button (`NEXT_BUTTON_DATA`). -/
def NEXT_BUTTON_DATA : String := "__NEXT__"

/-- Callback payload of the photo-intent button (`PHOTO_BUTTON_DATA`). -/
def PHOTO_BUTTON_DATA : String := "__PHOTO__"

/-- Embeds Python's `str.upper()` (ASCII case mapping, character by
character), kept kernel-computable by mapping over the character list. -/
def pyUpper (s : String) : String := String.mk (s.data.map Char.toUpper)

/-- Embeds Python's `str.strip()`: drop whitespace from both ends, kept
kernel-computable by working on the character list. -/
def pyStrip (s : String) : String :=
  String.mk (((s.data.dropWhile Char.isWhitespace).reverse.dropWhile Char.isWhitespace).reverse)

/-- One catalog entry (a record of `questions.json`), keeping exactly the
fields the state machine reads: visibility, the photo/choice kind flag, the
three options and the correct answer for choice questions, and the hint
text / hint image reference (empty string standing for an absent JSON
field, matching the code's `(q.get("hint") or "")` normalisation).
Display-only fields (prompt, intro, images, explanations) are omitted: no
state transition depends on them. -/
structure Question where
  visible : Bool
  expectPhoto : Bool
  options : List String
  answer : String
  hint : String
  hintImage : String
deriving DecidableEq, Repr

/-- A question catalog, in file order. -/
abbrev Catalog := List Question

/-- Embeds `get_active_questions`: the visible questions, in order. -/
def get_active_questions (cat : Catalog) : List Question :=
  cat.filter (fun q => q.visible)

/-- Number of visible questions (`len(get_active_questions())`). -/
def activeTotal (cat : Catalog) : Nat :=
  (get_active_questions cat).length

/-- Values of the session `state` field other than `None`:
`'awaiting_team_name' | 'awaiting_ready' | 'awaiting_timer'`. -/
inductive Pre where
  | awaitingTeamName
  | awaitingReady
  | awaitingTimer
deriving DecidableEq, Repr

/-- One participant's session record: the dict built by `ensure_session`
(`app.py` lines 236-266), with Python's float timestamps embedded as
integers and the two per-question Python sets as `Finset Nat`. -/
structure Session where
  index : Nat
  score : Nat
  teamName : Option String
  state : Option Pre
  startedAt : Option Int
  penaltySecs : Nat
  hintUsedIndices : List Nat
  awaitingNext : Bool
  awaitingPhotoFor : Option Nat
  photoAwardedFor : Finset Nat
  expSentFor : Finset Nat
  timeAccum : Int
  timeSegmentStarted : Option Int
deriving DecidableEq

/-- The defaults `ensure_session` assigns to a freshly created session. -/
def initSession : Session :=
  { index := 0
    score := 0
    teamName := none
    state := none
    startedAt := none
    penaltySecs := 0
    hintUsedIndices := []
    awaitingNext := false
    awaitingPhotoFor := none
    photoAwardedFor := ∅
    expSentFor := ∅
    timeAccum := 0
    timeSegmentStarted := none }

/-- The session produced by the `START` command (`app.py` line 686): the
stored dict holds only `index/score/team_name/state/started_at`, and
`ensure_session` backfills every other field with its default before any
later read, so the net record is the fresh default with
`state = awaiting_team_name`. -/
def startResetSession : Session :=
  { initSession with state := some Pre.awaitingTeamName }

/-- Embeds `timer_resume` (lines 57-60): if no running segment, record
`now` as the segment start. -/
def timer_resume (now : Int) (s : Session) : Session :=
  if s.timeSegmentStarted = none then { s with timeSegmentStarted := some now } else s

/-- Embeds `timer_pause` (lines 63-68): if a segment is running, fold
`now - start` into the accumulator and clear the segment. -/
def timer_pause (now : Int) (s : Session) : Session :=
  match s.timeSegmentStarted with
  | some ts => { s with timeAccum := s.timeAccum + (now - ts), timeSegmentStarted := none }
  | none => s

/-- Embeds `timer_elapsed` (lines 71-77): the accumulator plus the running
segment if any, clamped below at zero (`max(0.0, acc)`). -/
def timer_elapsed (now : Int) (s : Session) : Int :=
  max 0 (s.timeAccum + (match s.timeSegmentStarted with
    | some ts => now - ts
    | none => 0))

/-- Embeds the state reset of `finalize_quiz` (lines 509-521).  The summary
composition before the reset only emits output; the reset keeps the dict
(and in particular `team_name` and `state`) and zeroes the run fields. -/
def finalize_quiz (s : Session) : Session :=
  { s with
    index := 0
    score := 0
    startedAt := none
    awaitingNext := false
    awaitingPhotoFor := none
    photoAwardedFor := ∅
    expSentFor := ∅
    penaltySecs := 0
    hintUsedIndices := []
    timeAccum := 0
    timeSegmentStarted := none }

/-- Embeds the state effect of `present_question` (lines 307-354): clear the
awaiting flags, resume the timer, and if the index is past the visible
questions run `finalize_quiz`; otherwise the function only sends the
question. -/
def present_question (cat : Catalog) (now : Int) (s : Session) : Session :=
  let s1 := timer_resume now { s with awaitingNext := false, awaitingPhotoFor := none }
  match (get_active_questions cat)[s.index]? with
  | none => finalize_quiz s1
  | some _ => s1

/-- Output tags of `_use_hint_and_reprompt`: the not-in-a-quiz message, the
no-hint message, or the hint content whose caption carries the `+penalty`
annotation exactly on a first use. -/
inductive HintOut where
  | notActive
  | noHint
  | shown (firstTime : Bool)
deriving DecidableEq, Repr

/-- Embeds `_use_hint_and_reprompt` (lines 357-394): out of range or without
hint content it only sends a message; otherwise it charges the penalty and
records the index exactly when the index is not yet in
`hint_used_indices`. -/
def hint_step (cat : Catalog) (s : Session) : Session × HintOut :=
  match (get_active_questions cat)[s.index]? with
  | none => (s, HintOut.notActive)
  | some q =>
    if pyStrip q.hint = "" ∧ pyStrip q.hintImage = "" then
      (s, HintOut.noHint)
    else if s.index ∈ s.hintUsedIndices then
      (s, HintOut.shown false)
    else
      ({ s with
          penaltySecs := s.penaltySecs + HINT_PENALTY_SECS
          hintUsedIndices := s.hintUsedIndices ++ [s.index] },
        HintOut.shown true)

/-- Embeds `handle_answer` (lines 397-439): defensive finalize when out of
range; a nudge (no mutation) on photo questions; otherwise score on an
exact match against `answer`, then either finalize on the last question or
gate on the advance button with the timer paused. -/
def handle_answer (cat : Catalog) (now : Int) (selected : String) (s : Session) : Session :=
  match (get_active_questions cat)[s.index]? with
  | none => finalize_quiz s
  | some q =>
    if q.expectPhoto then s
    else
      let s1 := if selected = q.answer then { s with score := s.score + 1 } else s
      if s1.index + 1 ≥ activeTotal cat then
        finalize_quiz { s1 with awaitingNext := false }
      else
        timer_pause now { s1 with awaitingNext := true }

/-- Output tags of the photo-upload branch of the webhook (lines 638-680):
the admin forward, the first-time award message, the repeat received
message, the one-time explanation, the advance prompt, the final summary,
and the nudge for unexpected photos. -/
inductive PhotoOut where
  | adminForward
  | awarded
  | received
  | explained
  | nextPrompt
  | finalSummary
  | nudge
deriving DecidableEq, Repr

/-- Embeds the photo-message branch of `telegram_webhook` (lines 638-680):
an upload at a photo question in range with a file id is forwarded to the
admins, awarded at most once per index, explained at most once per index,
and then either finalizes (last question) or gates on the advance button;
any other photo only draws a nudge. -/
def photo_step (cat : Catalog) (now : Int) (s : Session) (fileId : Option String) :
    Session × List PhotoOut :=
  match (get_active_questions cat)[s.index]? with
  | none => (s, [PhotoOut.nudge])
  | some q =>
    if q.expectPhoto then
      match fileId with
      | none => (s, [PhotoOut.nudge])
      | some _ =>
        let awardNew := ¬ s.index ∈ s.photoAwardedFor
        let s1 :=
          if s.index ∈ s.photoAwardedFor then s
          else { s with
                  photoAwardedFor := insert s.index s.photoAwardedFor
                  score := s.score + 1 }
        let expNew := ¬ s.index ∈ s1.expSentFor
        let s2 :=
          if s.index ∈ s1.expSentFor then s1
          else { s1 with expSentFor := insert s.index s1.expSentFor }
        let ack := if awardNew then [PhotoOut.awarded] else [PhotoOut.received]
        let exp := if expNew then [PhotoOut.explained] else []
        if s.index + 1 ≥ activeTotal cat then
          (finalize_quiz { s2 with awaitingNext := false },
            PhotoOut.adminForward :: ack ++ exp ++ [PhotoOut.finalSummary])
        else
          (timer_pause now { s2 with awaitingNext := true },
            PhotoOut.adminForward :: ack ++ exp ++ [PhotoOut.nextPrompt])
    else (s, [PhotoOut.nudge])

/-- Embeds the `callback_query` branch of `telegram_webhook`
(lines 534-626), dispatching on the callback payload in source order:
`READY`, `START TIMER`, the photo-intent button, the advance button, the
hint button, and finally answer routing gated by `awaiting_next`.  An empty
payload is skipped by the `if chat_id is not None and data` guard. -/
def stepCallback (cat : Catalog) (now : Int) (s : Session) (data : String) : Session :=
  if data = "" then s
  else if pyUpper data = "READY" then
    let s1 := { s with state := none, index := 0 }
    { s1 with state := some Pre.awaitingTimer }
  else if pyUpper data = "START TIMER" ∨ pyUpper data = "START_TIMER" then
    present_question cat now
      { s with startedAt := some now, timeAccum := 0, timeSegmentStarted := none, state := none }
  else if data = PHOTO_BUTTON_DATA then
    match (get_active_questions cat)[s.index]? with
    | some q => if q.expectPhoto then { s with awaitingPhotoFor := some s.index } else s
    | none => s
  else if data = NEXT_BUTTON_DATA then
    if s.awaitingNext = false then s
    else
      let s1 := { s with awaitingNext := false, index := s.index + 1 }
      if s1.index < activeTotal cat then present_question cat now s1 else finalize_quiz s1
  else if data = HINT_BUTTON_DATA then (hint_step cat s).1
  else if s.awaitingNext then s
  else handle_answer cat now data s

/-- Embeds the text-message branch of `telegram_webhook` (lines 682-805),
after `text = (msg.get("text") or "").strip()`: the `START` reset, team-name
capture, the `READY` gate, the `HINT` keyword, the typed advance fallback,
the typed `START TIMER` fallback, and finally the free-text answer path
that accepts the text only when it is verbatim among the options and
otherwise re-presents the question. -/
def stepText (cat : Catalog) (now : Int) (s : Session) (raw : String) : Session :=
  let text := pyStrip raw
  let upper := pyUpper text
  if upper = "/START" ∨ upper = "START" then startResetSession
  else if s.state = some Pre.awaitingTeamName ∧ text ≠ "" then
    { s with teamName := some text, state := some Pre.awaitingReady }
  else if s.state = some Pre.awaitingReady then
    if upper = "READY" then
      let s1 := { s with state := none, index := 0 }
      { s1 with state := some Pre.awaitingTimer }
    else s
  else if upper = "HINT" then (hint_step cat s).1
  else if s.awaitingNext = true ∧ (upper = "NEXT" ∨ upper = "NEXT QUESTION" ∨ upper = "NEXT_QUESTION") then
    let s1 := { s with awaitingNext := false, index := s.index + 1 }
    if s1.index < activeTotal cat then present_question cat now s1 else finalize_quiz s1
  else if s.state = some Pre.awaitingTimer ∧ (upper = "START TIMER" ∨ upper = "START_TIMER") then
    present_question cat now { s with startedAt := some now, state := none }
  else if text ≠ "" then
    match (get_active_questions cat)[s.index]? with
    | none => s
    | some q =>
      if s.awaitingNext then s
      else if q.expectPhoto then s
      else if text ∈ q.options then handle_answer cat now text s
      else present_question cat now s
  else s

/-- The three inbound event shapes the webhook dispatches on: a button
callback with its payload, a plain text message, and a message carrying a
photo (with the file id of its largest size, when present). -/
inductive Event where
  | callback (data : String)
  | textMsg (raw : String)
  | photoMsg (fileId : Option String)

/-- One full webhook processing step for one session. -/
def step (cat : Catalog) (now : Int) (s : Session) : Event → Session
  | Event.callback d => stepCallback cat now s d
  | Event.textMsg r => stepText cat now s r
  | Event.photoMsg f => (photo_step cat now s f).1

/-- Folds a timed event sequence through `step`. -/
def run (cat : Catalog) (s : Session) : List (Int × Event) → Session
  | [] => s
  | (t, e) :: rest => run cat (step cat t s e) rest

/-- Sessions reachable from the freshly created record through webhook
steps at arbitrary times. -/
inductive Reachable (cat : Catalog) : Session → Prop where
  | init : Reachable cat initSession
  | step (s : Session) (now : Int) (e : Event) :
      Reachable cat s → Reachable cat (step cat now s e)

/-- The state-machine phase of a session, as the spec enumerates it:
three pre-run phases given by the `state` field, and for `state = None` the
`AwaitingAdvance` / `OnChallenge` split given by `awaiting_next`. -/
inductive Phase where
  | preTeam
  | preReady
  | preTimer
  | awaitingAdvance
  | onChallenge
deriving DecidableEq, Repr

/-- Phase of a session record. -/
def phase (s : Session) : Phase :=
  match s.state with
  | some Pre.awaitingTeamName => Phase.preTeam
  | some Pre.awaitingReady => Phase.preReady
  | some Pre.awaitingTimer => Phase.preTimer
  | none => if s.awaitingNext then Phase.awaitingAdvance else Phase.onChallenge

/-- Kind of the visible question at index `i`: `true` when it is a photo
question, `false` for a choice question or out of range. -/
def expectPhotoAt (cat : Catalog) (i : Nat) : Bool :=
  match (get_active_questions cat)[i]? with
  | some q => q.expectPhoto
  | none => false

/-- State invariant maintained by every webhook step: the penalty
accumulator is exactly the quantum times the number of recorded hint
positions, the recorded hint positions are distinct, the advance gate is
only ever set strictly inside the run, every photo question already passed
has been awarded, and a photo question whose advance gate is set has been
awarded. -/
def SessInv (cat : Catalog) (s : Session) : Prop :=
  s.penaltySecs = HINT_PENALTY_SECS * s.hintUsedIndices.length ∧
  s.hintUsedIndices.Nodup ∧
  (s.awaitingNext = true → s.index + 1 < activeTotal cat) ∧
  (∀ j, j < s.index → expectPhotoAt cat j = true → j ∈ s.photoAwardedFor) ∧
  (s.awaitingNext = true → expectPhotoAt cat s.index = true → s.index ∈ s.photoAwardedFor)

lemma expectPhotoAt_eq {cat : Catalog} {i : Nat} {q : Question}
    (h : (get_active_questions cat)[i]? = some q) :
    expectPhotoAt cat i = q.expectPhoto := by
  simp [expectPhotoAt, h]

lemma sessInv_initSession (cat : Catalog) : SessInv cat initSession := by
  simp [SessInv, initSession]

lemma sessInv_startResetSession (cat : Catalog) : SessInv cat startResetSession := by
  simp [SessInv, startResetSession, initSession]

lemma sessInv_finalize_quiz (cat : Catalog) (s : Session) : SessInv cat (finalize_quiz s) := by
  simp [SessInv, finalize_quiz]

lemma sessInv_timer_resume {cat : Catalog} {s : Session} (now : Int) (h : SessInv cat s) :
    SessInv cat (timer_resume now s) := by
  unfold timer_resume
  split <;> simpa [SessInv] using h

lemma sessInv_timer_pause {cat : Catalog} {s : Session} (now : Int) (h : SessInv cat s) :
    SessInv cat (timer_pause now s) := by
  unfold timer_pause
  split <;> simpa [SessInv] using h

lemma sessInv_present_question {cat : Catalog} {s : Session} (now : Int) (h : SessInv cat s) :
    SessInv cat (present_question cat now s) := by
  unfold present_question
  dsimp only
  split
  · exact sessInv_finalize_quiz cat _
  · refine sessInv_timer_resume now ?_
    obtain ⟨h1, h2, _, h4, _⟩ := h
    exact ⟨h1, h2, by simp, h4, by simp⟩

lemma sessInv_hint_step {cat : Catalog} {s : Session} (h : SessInv cat s) :
    SessInv cat (hint_step cat s).1 := by
  unfold hint_step
  split
  · exact h
  · split
    · exact h
    · split
      · exact h
      · obtain ⟨h1, h2, h3, h4, h5⟩ := h
        refine ⟨?_, ?_, h3, h4, h5⟩
        · simp [h1, Nat.mul_succ]
        · simp only [List.nodup_append, List.nodup_cons, List.nodup_nil]
          exact ⟨h2, by simp, by simpa [List.disjoint_left] using (by assumption)⟩

lemma sessInv_tail (cat : Catalog) (now : Int) (t : Session)
    (h1 : t.penaltySecs = HINT_PENALTY_SECS * t.hintUsedIndices.length)
    (h2 : t.hintUsedIndices.Nodup)
    (h4 : ∀ j, j < t.index → expectPhotoAt cat j = true → j ∈ t.photoAwardedFor)
    (h5 : expectPhotoAt cat t.index = true → t.index ∈ t.photoAwardedFor) :
    SessInv cat (if t.index + 1 ≥ activeTotal cat then
      finalize_quiz { t with awaitingNext := false }
    else
      timer_pause now { t with awaitingNext := true }) := by
  split
  · exact sessInv_finalize_quiz cat _
  · next hlt =>
    refine sessInv_timer_pause now ⟨h1, h2, ?_, h4, fun _ => h5⟩
    intro _
    exact Nat.lt_of_not_le hlt

lemma sessInv_handle_answer {cat : Catalog} {s : Session} (now : Int) (sel : String)
    (h : SessInv cat s) : SessInv cat (handle_answer cat now sel s) := by
  unfold handle_answer
  cases hq : (get_active_questions cat)[s.index]? with
  | none => exact sessInv_finalize_quiz cat _
  | some q =>
    dsimp only
    split
    · exact h
    · next hph =>
      refine sessInv_tail cat now _ ?_ ?_ ?_ ?_
      · split <;> exact h.1
      · split <;> exact h.2.1
      · split <;> exact h.2.2.2.1
      · split <;>
          (intro hp
           rw [expectPhotoAt_eq hq] at hp
           exact absurd hp hph)

lemma sessInv_photo_step {cat : Catalog} {s : Session} (now : Int) (fid : Option String)
    (h : SessInv cat s) : SessInv cat (photo_step cat now s fid).1 := by
  unfold photo_step
  cases hq : (get_active_questions cat)[s.index]? with
  | none => exact h
  | some q =>
    dsimp only
    split
    · cases fid with
      | none => exact h
      | some f =>
        dsimp only
        rw [apply_ite Prod.fst]
        dsimp only
        by_cases haw : s.index ∈ s.photoAwardedFor
        · rw [if_pos haw]
          by_cases hexp : s.index ∈ s.expSentFor
          · rw [if_pos hexp]
            exact sessInv_tail cat now s h.1 h.2.1 h.2.2.2.1 (fun _ => haw)
          · rw [if_neg hexp]
            exact sessInv_tail cat now
              { s with expSentFor := insert s.index s.expSentFor }
              h.1 h.2.1 h.2.2.2.1 (fun _ => haw)
        · rw [if_neg haw]
          dsimp only
          by_cases hexp : s.index ∈ s.expSentFor
          · rw [if_pos hexp]
            exact sessInv_tail cat now
              { s with photoAwardedFor := insert s.index s.photoAwardedFor,
                       score := s.score + 1 }
              h.1 h.2.1
              (fun j hj hp => Finset.mem_insert_of_mem (h.2.2.2.1 j hj hp))
              (fun _ => Finset.mem_insert_self _ _)
          · rw [if_neg hexp]
            exact sessInv_tail cat now
              { s with photoAwardedFor := insert s.index s.photoAwardedFor,
                       score := s.score + 1,
                       expSentFor := insert s.index s.expSentFor }
              h.1 h.2.1
              (fun j hj hp => Finset.mem_insert_of_mem (h.2.2.2.1 j hj hp))
              (fun _ => Finset.mem_insert_self _ _)
    · exact h

lemma sessInv_ready {cat : Catalog} {s : Session} (h : SessInv cat s) :
    SessInv cat { { s with state := none, index := 0 } with state := some Pre.awaitingTimer } := by
  obtain ⟨h1, h2, h3, h4, h5⟩ := h
  refine ⟨h1, h2, ?_, ?_, ?_⟩
  · intro hn
    have h' := h3 hn
    show 0 + 1 < activeTotal cat
    omega
  · intro j hj
    exact absurd hj (Nat.not_lt_zero j)
  · intro hn hp
    have hp' : expectPhotoAt cat 0 = true := hp
    show 0 ∈ s.photoAwardedFor
    rcases Nat.eq_zero_or_pos s.index with h0 | hpos
    · have hmem := h5 hn (by rw [h0]; exact hp')
      rwa [h0] at hmem
    · exact h4 0 hpos hp' 

lemma sessInv_advance {cat : Catalog} {s : Session} (h : SessInv cat s)
    (hn : s.awaitingNext = true) :
    SessInv cat { s with awaitingNext := false, index := s.index + 1 } := by
  obtain ⟨h1, h2, _, h4, h5⟩ := h
  refine ⟨h1, h2, by simp, ?_, by simp⟩
  intro j hj hp
  rcases Nat.lt_succ_iff_lt_or_eq.mp hj with hlt | heq
  · exact h4 j hlt hp
  · exact heq ▸ h5 hn (heq ▸ hp)

lemma sessInv_stepCallback {cat : Catalog} {s : Session} (now : Int) (data : String)
    (h : SessInv cat s) : SessInv cat (stepCallback cat now s data) := by
  unfold stepCallback
  split
  · exact h
  · split
    · exact sessInv_ready h
    · split
      · exact sessInv_present_question now h
      · split
        · split
          · split <;> exact h
          · exact h
        · split
          · split
            · exact h
            · next hnf =>
              have hn : s.awaitingNext = true := by simp_all
              try dsimp only
              split
              · exact sessInv_present_question now (sessInv_advance h hn)
              · exact sessInv_finalize_quiz cat _
          · split
            · exact sessInv_hint_step h
            · split
              · exact h
              · exact sessInv_handle_answer now data h

lemma sessInv_stepText {cat : Catalog} {s : Session} (now : Int) (raw : String)
    (h : SessInv cat s) : SessInv cat (stepText cat now s raw) := by
  unfold stepText
  dsimp only
  split
  · exact sessInv_startResetSession cat
  · split
    · exact h
    · split
      · split
        · exact sessInv_ready h
        · exact h
      · split
        · exact sessInv_hint_step h
        · split
          · next hc =>
            try dsimp only
            split
            · exact sessInv_present_question now (sessInv_advance h hc.1)
            · exact sessInv_finalize_quiz cat _
          · split
            · exact sessInv_present_question now h
            · split
              · split
                · exact h
                · split
                  · exact h
                  · split
                    · exact h
                    · split
                      · exact sessInv_handle_answer now _ h
                      · exact sessInv_present_question now h
              · exact h

lemma sessInv_step {cat : Catalog} {s : Session} (now : Int) (e : Event)
    (h : SessInv cat s) : SessInv cat (step cat now s e) := by
  cases e with
  | callback d => exact sessInv_stepCallback now d h
  | textMsg r => exact sessInv_stepText now r h
  | photoMsg f => exact sessInv_photo_step now f h

/-- Every reachable session satisfies the state invariant. -/
lemma reachable_sessInv {cat : Catalog} {s : Session} (hr : Reachable cat s) :
    SessInv cat s := by
  induction hr with
  | init => exact sessInv_initSession cat
  | step s now e _ ih => exact sessInv_step now e ih

lemma timer_resume_index (now : Int) (s : Session) : (timer_resume now s).index = s.index := by
  cases h : s.timeSegmentStarted <;> simp [timer_resume, h]

lemma timer_resume_score (now : Int) (s : Session) : (timer_resume now s).score = s.score := by
  cases h : s.timeSegmentStarted <;> simp [timer_resume, h]

lemma timer_resume_state (now : Int) (s : Session) : (timer_resume now s).state = s.state := by
  cases h : s.timeSegmentStarted <;> simp [timer_resume, h]

lemma timer_resume_awaitingNext (now : Int) (s : Session) :
    (timer_resume now s).awaitingNext = s.awaitingNext := by
  cases h : s.timeSegmentStarted <;> simp [timer_resume, h]

lemma timer_resume_awaitingPhotoFor (now : Int) (s : Session) :
    (timer_resume now s).awaitingPhotoFor = s.awaitingPhotoFor := by
  cases h : s.timeSegmentStarted <;> simp [timer_resume, h]

lemma timer_pause_index (now : Int) (s : Session) : (timer_pause now s).index = s.index := by
  cases h : s.timeSegmentStarted <;> simp [timer_pause, h]

lemma timer_pause_score (now : Int) (s : Session) : (timer_pause now s).score = s.score := by
  cases h : s.timeSegmentStarted <;> simp [timer_pause, h]

lemma timer_pause_state (now : Int) (s : Session) : (timer_pause now s).state = s.state := by
  cases h : s.timeSegmentStarted <;> simp [timer_pause, h]

lemma timer_pause_awaitingNext (now : Int) (s : Session) :
    (timer_pause now s).awaitingNext = s.awaitingNext := by
  cases h : s.timeSegmentStarted <;> simp [timer_pause, h]

lemma timer_pause_photoAwardedFor (now : Int) (s : Session) :
    (timer_pause now s).photoAwardedFor = s.photoAwardedFor := by
  cases h : s.timeSegmentStarted <;> simp [timer_pause, h]

lemma timer_pause_expSentFor (now : Int) (s : Session) :
    (timer_pause now s).expSentFor = s.expSentFor := by
  cases h : s.timeSegmentStarted <;> simp [timer_pause, h]

lemma timer_pause_seg (now : Int) (s : Session) :
    (timer_pause now s).timeSegmentStarted = none := by
  cases h : s.timeSegmentStarted <;> simp [timer_pause, h]

lemma present_question_eq_of_some (cat : Catalog) (now : Int) (s : Session) (q : Question)
    (hq : (get_active_questions cat)[s.index]? = some q) :
    present_question cat now s =
      timer_resume now { s with awaitingNext := false, awaitingPhotoFor := none } := by
  unfold present_question
  rw [hq]

lemma present_question_eq_of_none (cat : Catalog) (now : Int) (s : Session)
    (hq : (get_active_questions cat)[s.index]? = none) :
    present_question cat now s =
      finalize_quiz (timer_resume now { s with awaitingNext := false, awaitingPhotoFor := none }) := by
  unfold present_question
  rw [hq]

/-- Well-formed timer state at clock reading `now`: the accumulator is
non-negative and any running segment started no later than `now`.  This
holds for every state the timer primitive itself produces from the fresh
session under non-decreasing clock readings. -/
def TimerWF (now : Int) (s : Session) : Prop :=
  0 ≤ s.timeAccum ∧ s.timeSegmentStarted.getD now ≤ now

/-- One timer call: `true` is a `timer_resume`, `false` a `timer_pause`,
at clock reading `now`. -/
def applyTimerOp (op : Bool) (now : Int) (s : Session) : Session :=
  if op then timer_resume now s else timer_pause now s

/-- Folds a sequence of timestamped resume/pause calls. -/
def runTimerOps (s : Session) : List (Bool × Int) → Session
  | [] => s
  | (op, t) :: rest => runTimerOps (applyTimerOp op t s) rest

/-- The clock readings of the call sequence are non-decreasing and start no
earlier than `t0`. -/
def ChronFrom (t0 : Int) : List (Bool × Int) → Prop
  | [] => True
  | (_, t) :: rest => t0 ≤ t ∧ ChronFrom t rest

/-- Last clock reading of the call sequence (or `t0` when empty). -/
def endTime (t0 : Int) : List (Bool × Int) → Int
  | [] => t0
  | (_, t) :: rest => endTime t rest

lemma timerWF_mono {t0 t1 : Int} {s : Session} (h : TimerWF t0 s) (hle : t0 ≤ t1) :
    TimerWF t1 s := by
  obtain ⟨h1, h2⟩ := h
  refine ⟨h1, ?_⟩
  cases hts : s.timeSegmentStarted with
  | none => simp
  | some ts =>
    rw [hts] at h2
    simp only [Option.getD_some] at h2 ⊢
    omega

lemma timerWF_apply {t0 t1 : Int} {s : Session} (op : Bool) (h : TimerWF t0 s)
    (hle : t0 ≤ t1) : TimerWF t1 (applyTimerOp op t1 s) := by
  obtain ⟨h1, h2⟩ := h
  unfold TimerWF applyTimerOp timer_resume timer_pause
  split
  · split
    · exact ⟨h1, by simp⟩
    · next hts =>
      refine ⟨h1, ?_⟩
      cases hts2 : s.timeSegmentStarted with
      | none => exact absurd hts2 hts
      | some ts =>
        rw [hts2] at h2
        simp only [Option.getD_some] at h2 ⊢
        omega
  · split
    · next ts hts =>
      refine ⟨?_, by simp⟩
      rw [hts] at h2
      simp only [Option.getD_some] at h2
      show 0 ≤ s.timeAccum + (t1 - ts)
      omega
    · next hts =>
      refine ⟨h1, ?_⟩
      rw [hts]
      simp

lemma timer_elapsed_mono_time {t0 t1 : Int} (s : Session) (hle : t0 ≤ t1) :
    timer_elapsed t0 s ≤ timer_elapsed t1 s := by
  unfold timer_elapsed
  cases hts : s.timeSegmentStarted with
  | none => simp
  | some ts =>
    dsimp only
    omega

lemma timer_elapsed_apply (op : Bool) (t : Int) (s : Session) :
    timer_elapsed t (applyTimerOp op t s) = timer_elapsed t s := by
  cases op with
  | true =>
    cases hts : s.timeSegmentStarted with
    | none => simp [applyTimerOp, timer_resume, timer_elapsed, hts]
    | some ts => simp [applyTimerOp, timer_resume, timer_elapsed, hts]
  | false =>
    cases hts : s.timeSegmentStarted with
    | none => simp [applyTimerOp, timer_pause, timer_elapsed, hts]
    | some ts =>
      simp only [applyTimerOp, timer_pause, timer_elapsed, hts, Bool.false_eq_true, if_false]
      omega

lemma timer_elapsed_runTimerOps (ops : List (Bool × Int)) :
    ∀ (s : Session) (t0 t1 : Int), TimerWF t0 s → ChronFrom t0 ops →
      endTime t0 ops ≤ t1 → timer_elapsed t0 s ≤ timer_elapsed t1 (runTimerOps s ops) := by
  induction ops with
  | nil =>
    intro s t0 t1 _ _ hend
    exact timer_elapsed_mono_time s hend
  | cons p rest ih =>
    obtain ⟨op, t⟩ := p
    intro s t0 t1 hwf hchron hend
    obtain ⟨hle, hchron'⟩ := hchron
    calc timer_elapsed t0 s ≤ timer_elapsed t s := timer_elapsed_mono_time s hle
      _ = timer_elapsed t (applyTimerOp op t s) := (timer_elapsed_apply op t s).symm
      _ ≤ timer_elapsed t1 (runTimerOps (applyTimerOp op t s) rest) :=
          ih (applyTimerOp op t s) t t1 (timerWF_apply op hwf hle) hchron' hend

/-- Visible choice question with a hint, options A/B/C, answer A. -/
def qChoiceA : Question :=
  { visible := true, expectPhoto := false, options := ["A", "B", "C"],
    answer := "A", hint := "a hint", hintImage := "" }

/-- Visible choice question without hint content, options D/E/F, answer E. -/
def qChoiceB : Question :=
  { visible := true, expectPhoto := false, options := ["D", "E", "F"],
    answer := "E", hint := "", hintImage := "  " }

/-- Visible photo question. -/
def qPhoto : Question :=
  { visible := true, expectPhoto := true, options := [], answer := "",
    hint := "", hintImage := "" }

/-- Catalog of two visible choice questions. -/
def catTwoChoice : Catalog := [qChoiceA, qChoiceB]

/-- Catalog of one visible choice question. -/
def catOneChoice : Catalog := [qChoiceA]

/-- Catalog of one visible choice question without hint content. -/
def catOneChoiceNoHint : Catalog := [qChoiceB]

/-- Catalog of one visible photo question (the photo question is last). -/
def catOnePhoto : Catalog := [qPhoto]

/-- Catalog with a photo question followed by a choice question. -/
def catPhotoChoice : Catalog := [qPhoto, qChoiceA]

/-- C6: the timer primitive: `resume` while running and `pause` while paused
are no-ops, `pause` while running folds `now - runningSince` into the
accumulator and clears the segment, `elapsed` is the accumulator plus the
running segment (on well-formed states, where the code's `max(0, ·)` clamp
is inert), `elapsed` is never negative, and across any resume/pause call
sequence with non-decreasing clock readings `elapsed` never decreases. -/
theorem timer_primitive_spec :
    (∀ (now : Int) (s : Session), s.timeSegmentStarted ≠ none → timer_resume now s = s) ∧
    (∀ (now : Int) (s : Session), s.timeSegmentStarted = none → timer_pause now s = s) ∧
    (∀ (now : Int) (s : Session) (ts : Int), s.timeSegmentStarted = some ts →
      timer_pause now s =
        { s with timeAccum := s.timeAccum + (now - ts), timeSegmentStarted := none }) ∧
    (∀ (now : Int) (s : Session), TimerWF now s →
      timer_elapsed now s = s.timeAccum +
        (match s.timeSegmentStarted with
          | some ts => now - ts
          | none => 0)) ∧
    (∀ (now : Int) (s : Session), 0 ≤ timer_elapsed now s) ∧
    (∀ (ops : List (Bool × Int)) (s : Session) (t0 t1 : Int), TimerWF t0 s →
      ChronFrom t0 ops → endTime t0 ops ≤ t1 →
      timer_elapsed t0 s ≤ timer_elapsed t1 (runTimerOps s ops)) := by
  refine ⟨?_, ?_, ?_, ?_, ?_, ?_⟩
  · intro now s h
    unfold timer_resume
    exact if_neg h
  · intro now s h
    simp [timer_pause, h]
  · intro now s ts h
    simp [timer_pause, h]
  · intro now s hwf
    obtain ⟨h1, h2⟩ := hwf
    unfold timer_elapsed
    cases hts : s.timeSegmentStarted with
    | none =>
      simp only [hts]
      omega
    | some ts =>
      rw [hts] at h2
      simp only [Option.getD_some] at h2
      simp only [hts]
      omega
  · intro now s
    exact le_max_left 0 _
  · intro ops s t0 t1 hwf hchron hend
    exact timer_elapsed_runTimerOps ops s t0 t1 hwf hchron hend

/-- Concrete timer state: accumulator 3, running since instant 2. -/
def timerS0 : Session := { initSession with timeAccum := 3, timeSegmentStarted := some 2 }

/-- C6 witness: each conjunct of `timer_primitive_spec` instantiated at
concrete states, clock readings and a concrete two-call sequence. -/
theorem timer_primitive_spec_witness :
    timer_resume 5 timerS0 = timerS0 ∧
    timer_pause 5 initSession = initSession ∧
    timer_pause 5 timerS0 =
      { timerS0 with timeAccum := timerS0.timeAccum + (5 - 2), timeSegmentStarted := none } ∧
    timer_elapsed 5 timerS0 = 3 + (5 - 2) ∧
    0 ≤ timer_elapsed 5 timerS0 ∧
    timer_elapsed 2 timerS0 ≤ timer_elapsed 10 (runTimerOps timerS0 [(false, 6), (true, 8)]) :=
  ⟨timer_primitive_spec.1 5 timerS0 (by decide),
   timer_primitive_spec.2.1 5 initSession (by decide),
   timer_primitive_spec.2.2.1 5 timerS0 2 (by decide),
   timer_primitive_spec.2.2.2.1 5 timerS0 ⟨by decide, by decide⟩,
   timer_primitive_spec.2.2.2.2.1 5 timerS0,
   timer_primitive_spec.2.2.2.2.2 [(false, 6), (true, 8)] timerS0 2 10
     ⟨by decide, by decide⟩ ⟨by decide, by decide, trivial⟩ (by decide)⟩

/-- Concrete mid-run session: quiz started at instant 5, one point scored,
at position 1, with a captured team label. -/
def sessMidRun : Session :=
  { initSession with startedAt := some 5, teamName := some "T", score := 1, index := 1 }

/-- C7 counterexample: `finalize_quiz` also resets the quiz-start timestamp
`started_at` (a field outside the claim's reset list: it is neither the
timer accumulator nor the running segment), so finalize does not leave
"every other session field" unchanged. -/
theorem finalize_frame_cex :
    sessMidRun.startedAt = some 5 ∧ (finalize_quiz sessMidRun).startedAt = none := by
  decide

/-- C7 (amended): finalize resets position, score, the quiz-start
timestamp, the active timer, the penalty accumulator, the three
per-position sets and both awaiting flags to their defaults, and leaves
every other field — the team label and the `state` field — unchanged. -/
theorem finalize_frame_amended : ∀ s : Session,
    finalize_quiz s =
      { s with
        index := 0, score := 0, startedAt := none, awaitingNext := false,
        awaitingPhotoFor := none, photoAwardedFor := ∅, expSentFor := ∅,
        penaltySecs := 0, hintUsedIndices := [], timeAccum := 0,
        timeSegmentStarted := none } ∧
    (finalize_quiz s).teamName = s.teamName ∧
    (finalize_quiz s).state = s.state :=
  fun _ => ⟨rfl, rfl, rfl⟩

/-- C10: a hint signal at a position past the visible questions, or at a
question with neither non-empty hint text nor a non-empty hint image,
leaves the session record unchanged and emits only the corresponding
informational message: no penalty is charged and nothing is recorded. -/
theorem hint_unavailable_noop : ∀ (cat : Catalog) (s : Session),
    (activeTotal cat ≤ s.index → hint_step cat s = (s, HintOut.notActive)) ∧
    (∀ q, (get_active_questions cat)[s.index]? = some q →
      pyStrip q.hint = "" → pyStrip q.hintImage = "" →
      hint_step cat s = (s, HintOut.noHint)) := by
  intro cat s
  constructor
  · intro hout
    unfold hint_step
    rw [List.getElem?_eq_none hout]
  · intro q hq hh hi
    unfold hint_step
    rw [hq]
    dsimp only
    rw [if_pos ⟨hh, hi⟩]

/-- C10 witness: `hint_unavailable_noop` applied to a session three
positions past a one-question catalog, and to a fresh session whose current
question has only blank hint fields. -/
theorem hint_unavailable_noop_witness :
    hint_step catOneChoiceNoHint { initSession with index := 3 } =
      ({ initSession with index := 3 }, HintOut.notActive) ∧
    hint_step catOneChoiceNoHint initSession = (initSession, HintOut.noHint) :=
  ⟨(hint_unavailable_noop catOneChoiceNoHint _).1 (by decide),
   (hint_unavailable_noop catOneChoiceNoHint initSession).2 qChoiceB (by decide)
     (by decide) (by decide)⟩

/-- Event sequence replaying the pre-run `READY` / `Start Timer` buttons
mid-quiz: each replay resets the position to 0 without resetting the score,
so correct answers can be re-scored. -/
def scoreBugEvents : List (Int × Event) :=
  [(0, Event.callback "A"), (1, Event.callback "READY"), (2, Event.callback "Start Timer"),
   (3, Event.callback "A"), (4, Event.callback "READY"), (5, Event.callback "Start Timer"),
   (6, Event.callback "A")]

/-- C3 (code bug evaluation): on a catalog of 2 visible questions, replaying
the stale `READY` / `Start Timer` buttons after answering lets the same
question score repeatedly: the session reaches `score = 3 > 2 = total`,
violating the claimed invariant `0 ≤ score ≤ total`. -/
theorem score_exceeds_total_eval :
    (run catTwoChoice initSession scoreBugEvents).score = 3 ∧
    activeTotal catTwoChoice = 2 := by
  decide

/-- C1 counterexample: position 0 of this one-question catalog is a visible
challenge, but its hint fields are blank, so invoking the hint action once
adds no penalty quantum and inserts nothing into the hint-charged list —
the claim demands exactly one quantum and one insertion for every
visible-challenge position. -/
theorem hint_penalty_once_cex :
    (hint_step catOneChoiceNoHint initSession).1.penaltySecs = 0 ∧
    (hint_step catOneChoiceNoHint initSession).1.hintUsedIndices = [] ∧
    activeTotal catOneChoiceNoHint = 1 ∧ initSession.index = 0 := by
  decide

/-- C1 (amended): at a visible position whose question has hint content, a
first hint invocation adds exactly one penalty quantum and appends the
position once, repeated invocations change nothing further; and in every
reachable session the penalty accumulator equals the quantum times the
number of (distinct) recorded positions. -/
theorem hint_penalty_once_amended :
    (∀ (cat : Catalog) (s : Session) (q : Question),
      (get_active_questions cat)[s.index]? = some q →
      ¬(pyStrip q.hint = "" ∧ pyStrip q.hintImage = "") →
      (s.index ∉ s.hintUsedIndices →
        (hint_step cat s).1.penaltySecs = s.penaltySecs + HINT_PENALTY_SECS ∧
        (hint_step cat s).1.hintUsedIndices = s.hintUsedIndices ++ [s.index]) ∧
      (hint_step cat (hint_step cat s).1).1 = (hint_step cat s).1) ∧
    (∀ (cat : Catalog) (s : Session), Reachable cat s →
      s.penaltySecs = HINT_PENALTY_SECS * s.hintUsedIndices.length ∧
      s.hintUsedIndices.Nodup) := by
  constructor
  · intro cat s q hq hcontent
    constructor
    · intro hnot
      unfold hint_step
      rw [hq]
      dsimp only
      rw [if_neg hcontent, if_neg hnot]
      exact ⟨rfl, rfl⟩
    · by_cases hmem : s.index ∈ s.hintUsedIndices
      · have h1 : hint_step cat s = (s, HintOut.shown false) := by
          unfold hint_step
          rw [hq]
          dsimp only
          rw [if_neg hcontent, if_pos hmem]
        rw [h1]
        dsimp only
        rw [h1]
      · have h1 : hint_step cat s =
            ({ s with
                penaltySecs := s.penaltySecs + HINT_PENALTY_SECS,
                hintUsedIndices := s.hintUsedIndices ++ [s.index] }, HintOut.shown true) := by
          unfold hint_step
          rw [hq]
          dsimp only
          rw [if_neg hcontent, if_neg hmem]
        rw [h1]
        dsimp only
        unfold hint_step
        dsimp only
        rw [hq]
        dsimp only
        rw [if_neg hcontent, if_pos (by simp)]
  · intro cat s hr
    exact ⟨(reachable_sessInv hr).1, (reachable_sessInv hr).2.1⟩

/-- C1 witness: the amended theorem applied to a fresh session at a hinted
question (first charge, then idempotence), and the accounting identity at a
concrete reachable session produced by one hint-button step. -/
theorem hint_penalty_once_amended_witness :
    ((hint_step catTwoChoice initSession).1.penaltySecs =
        initSession.penaltySecs + HINT_PENALTY_SECS ∧
      (hint_step catTwoChoice initSession).1.hintUsedIndices =
        initSession.hintUsedIndices ++ [initSession.index]) ∧
    (hint_step catTwoChoice (hint_step catTwoChoice initSession).1).1 =
      (hint_step catTwoChoice initSession).1 ∧
    ((step catTwoChoice 0 initSession (Event.callback "__HINT__")).penaltySecs =
        HINT_PENALTY_SECS *
          (step catTwoChoice 0 initSession (Event.callback "__HINT__")).hintUsedIndices.length ∧
      (step catTwoChoice 0 initSession (Event.callback "__HINT__")).hintUsedIndices.Nodup) :=
  ⟨(hint_penalty_once_amended.1 catTwoChoice initSession qChoiceA (by decide) (by decide)).1
      (by decide),
   (hint_penalty_once_amended.1 catTwoChoice initSession qChoiceA (by decide) (by decide)).2,
   hint_penalty_once_amended.2 catTwoChoice _
     (Reachable.step initSession 0 (Event.callback "__HINT__") Reachable.init)⟩

/-- Session three steps short of nothing: a fresh record whose position has
drifted past a one-question catalog. -/
def outOfRangeSess : Session := { initSession with index := 1 }

/-- C9 counterexample: with position 1 ≥ total 1, an unrecognized free text
and a photo submission are answered with a message only and leave the
session unchanged (position still 1) — the claimed finalize composition
would have reset the position to 0, so the finalize-fallback does not run
for these input shapes. -/
theorem out_of_range_fallback_cex :
    stepText catOneChoice 0 outOfRangeSess "hello" = outOfRangeSess ∧
    (photo_step catOneChoice 0 outOfRangeSess (some "f")).1 = outOfRangeSess ∧
    finalize_quiz outOfRangeSess ≠ outOfRangeSess := by
  decide

/-- C9 (amended): with the position at or past the visible-question count,
only an unrecognized answer callback re-runs the finalize composition
defensively; unrecognized free text draws a "type START" prompt and a photo
submission a nudge, each leaving the session record unchanged. -/
theorem out_of_range_dispatch_amended :
    ∀ (cat : Catalog) (now : Int) (s : Session) (data raw : String) (fid : Option String),
    activeTotal cat ≤ s.index →
    (data ≠ "" → pyUpper data ≠ "READY" → pyUpper data ≠ "START TIMER" →
      pyUpper data ≠ "START_TIMER" → data ≠ PHOTO_BUTTON_DATA → data ≠ NEXT_BUTTON_DATA →
      data ≠ HINT_BUTTON_DATA → s.awaitingNext = false →
      stepCallback cat now s data = finalize_quiz s) ∧
    (s.state = none → s.awaitingNext = false → pyStrip raw ≠ "" →
      pyUpper (pyStrip raw) ≠ "/START" → pyUpper (pyStrip raw) ≠ "START" →
      pyUpper (pyStrip raw) ≠ "HINT" →
      stepText cat now s raw = s) ∧
    photo_step cat now s fid = (s, [PhotoOut.nudge]) := by
  intro cat now s data raw fid hout
  have hq : (get_active_questions cat)[s.index]? = none := List.getElem?_eq_none hout
  refine ⟨?_, ?_, ?_⟩
  · intro h1 h2 h3 h4 h5 h6 h7 h8
    unfold stepCallback
    rw [if_neg h1, if_neg h2, if_neg (by simp [h3, h4]), if_neg h5, if_neg h6, if_neg h7,
      if_neg (by simp [h8])]
    unfold handle_answer
    rw [hq]
  · intro hst hAw hne h1 h2 h3
    unfold stepText
    dsimp only
    rw [if_neg (by simp [h1, h2]), if_neg (by simp [hst]), if_neg (by simp [hst]), if_neg h3,
      if_neg (by simp [hAw]), if_neg (by simp [hst]), if_pos hne, hq]
  · unfold photo_step
    rw [hq]

/-- C9 witness: the amended dispatch applied at a concrete out-of-range
session: an answer callback finalizes, while text and a photo leave the
record as it is. -/
theorem out_of_range_dispatch_amended_witness :
    stepCallback catOneChoice 0 outOfRangeSess "A" = finalize_quiz outOfRangeSess ∧
    stepText catOneChoice 0 outOfRangeSess "bye" = outOfRangeSess ∧
    photo_step catOneChoice 0 outOfRangeSess none = (outOfRangeSess, [PhotoOut.nudge]) :=
  ⟨(out_of_range_dispatch_amended catOneChoice 0 outOfRangeSess "A" "bye" none (by decide)).1
      (by decide) (by decide) (by decide) (by decide) (by decide) (by decide) (by decide)
      (by decide),
   (out_of_range_dispatch_amended catOneChoice 0 outOfRangeSess "A" "bye" none (by decide)).2.1
      (by decide) (by decide) (by decide) (by decide) (by decide) (by decide),
   (out_of_range_dispatch_amended catOneChoice 0 outOfRangeSess "A" "bye" none (by decide)).2.2⟩

lemma present_question_awaitingNext (cat : Catalog) (now : Int) (s : Session) :
    (present_question cat now s).awaitingNext = false := by
  unfold present_question
  dsimp only
  split
  · rfl
  · rw [timer_resume_awaitingNext]

lemma present_question_awaitingPhotoFor (cat : Catalog) (now : Int) (s : Session) :
    (present_question cat now s).awaitingPhotoFor = none := by
  unfold present_question
  dsimp only
  split
  · rfl
  · rw [timer_resume_awaitingPhotoFor]

lemma next_callback_idle {cat : Catalog} {now : Int} {s : Session}
    (h : s.awaitingNext = false) : stepCallback cat now s NEXT_BUTTON_DATA = s := by
  unfold stepCallback
  rw [if_neg (by decide), if_neg (by decide), if_neg (by decide), if_neg (by decide),
    if_pos rfl, if_pos h]

lemma next_callback_adv {cat : Catalog} {now : Int} {s : Session}
    (h : s.awaitingNext = true) :
    stepCallback cat now s NEXT_BUTTON_DATA =
      (if s.index + 1 < activeTotal cat then
        present_question cat now { s with awaitingNext := false, index := s.index + 1 }
      else
        finalize_quiz { s with awaitingNext := false, index := s.index + 1 }) := by
  unfold stepCallback
  rw [if_neg (by decide), if_neg (by decide), if_neg (by decide), if_neg (by decide),
    if_pos rfl, if_neg (by simp [h])]

lemma next_text_adv {cat : Catalog} {now : Int} {s : Session} (raw : String)
    (hst : s.state = none) (h : s.awaitingNext = true)
    (hu : pyUpper (pyStrip raw) = "NEXT" ∨ pyUpper (pyStrip raw) = "NEXT QUESTION" ∨
      pyUpper (pyStrip raw) = "NEXT_QUESTION") :
    stepText cat now s raw =
      (if s.index + 1 < activeTotal cat then
        present_question cat now { s with awaitingNext := false, index := s.index + 1 }
      else
        finalize_quiz { s with awaitingNext := false, index := s.index + 1 }) := by
  unfold stepText
  dsimp only
  rw [if_neg (by rcases hu with h1 | h1 | h1 <;> simp [h1]), if_neg (by simp [hst]),
    if_neg (by simp [hst]), if_neg (by rcases hu with h1 | h1 | h1 <;> simp [h1]),
    if_pos ⟨h, hu⟩]

/-- C8 counterexample: a typed Advance signal ("NEXT") arriving while
awaitingAdvance is false does not leave the session record entirely
unchanged: the fallback path re-presents the current challenge, which
resumes the active timer (the running segment appears). -/
theorem advance_idle_mutation_cex :
    initSession.awaitingNext = false ∧
    stepText catTwoChoice 5 initSession "NEXT" ≠ initSession ∧
    (stepText catTwoChoice 5 initSession "NEXT").timeSegmentStarted = some 5 := by
  decide

/-- C8 (amended): an Advance button callback while awaitingAdvance is true
clears both awaiting flags and increments the position by exactly one (in
every reachable session); while awaitingAdvance is false the callback is
ignored and the record is left entirely unchanged, so a duplicate delivery
advances exactly once.  A typed "NEXT" while awaitingAdvance is true (in
the in-quiz phase) advances the same way; while awaitingAdvance is false it
is treated as ordinary challenge input — it may re-present the challenge
and resume the timer, but never moves the position or the score. -/
theorem advance_once_amended :
    ∀ (cat : Catalog) (now now2 : Int) (s : Session), Reachable cat s →
    (s.awaitingNext = true →
      (stepCallback cat now s NEXT_BUTTON_DATA).index = s.index + 1 ∧
      (stepCallback cat now s NEXT_BUTTON_DATA).awaitingNext = false ∧
      (stepCallback cat now s NEXT_BUTTON_DATA).awaitingPhotoFor = none) ∧
    (s.awaitingNext = false → stepCallback cat now s NEXT_BUTTON_DATA = s) ∧
    (stepCallback cat now2 (stepCallback cat now s NEXT_BUTTON_DATA) NEXT_BUTTON_DATA =
      stepCallback cat now s NEXT_BUTTON_DATA) ∧
    (s.state = none → s.awaitingNext = true →
      (stepText cat now s "NEXT").index = s.index + 1 ∧
      (stepText cat now s "NEXT").awaitingNext = false) ∧
    (s.state = none → s.awaitingNext = false →
      (∀ q, (get_active_questions cat)[s.index]? = some q → "NEXT" ∉ q.options) →
      (stepText cat now s "NEXT").index = s.index ∧
      (stepText cat now s "NEXT").score = s.score) := by
  intro cat now now2 s hr
  have hinv := reachable_sessInv hr
  refine ⟨?_, ?_, ?_, ?_, ?_⟩
  · intro hn
    have hlt : s.index + 1 < activeTotal cat := hinv.2.2.1 hn
    rw [next_callback_adv hn, if_pos hlt,
      present_question_eq_of_some cat now { s with awaitingNext := false, index := s.index + 1 }
        _ (List.getElem?_eq_getElem hlt)]
    refine ⟨?_, ?_, ?_⟩
    · rw [timer_resume_index]
    · rw [timer_resume_awaitingNext]
    · rw [timer_resume_awaitingPhotoFor]
  · intro hf
    exact next_callback_idle hf
  · by_cases hn : s.awaitingNext = true
    · have hra : (stepCallback cat now s NEXT_BUTTON_DATA).awaitingNext = false := by
        rw [next_callback_adv hn]
        split
        · exact present_question_awaitingNext cat now _
        · rfl
      exact next_callback_idle hra
    · have hf : s.awaitingNext = false := by simpa using hn
      rw [next_callback_idle hf, next_callback_idle hf]
  · intro hst hn
    have hlt : s.index + 1 < activeTotal cat := hinv.2.2.1 hn
    rw [next_text_adv "NEXT" hst hn (Or.inl (by decide)), if_pos hlt,
      present_question_eq_of_some cat now { s with awaitingNext := false, index := s.index + 1 }
        _ (List.getElem?_eq_getElem hlt)]
    exact ⟨by rw [timer_resume_index], by rw [timer_resume_awaitingNext]⟩
  · intro hst hf hopt
    unfold stepText
    dsimp only
    rw [if_neg (by decide), if_neg (by simp [hst]), if_neg (by simp [hst]), if_neg (by decide),
      if_neg (by simp [hf]), if_neg (by simp [hst]), if_pos (by decide : pyStrip "NEXT" ≠ "")]
    cases hq : (get_active_questions cat)[s.index]? with
    | none => exact ⟨rfl, rfl⟩
    | some q =>
      dsimp only
      rw [if_neg (by simp [hf])]
      by_cases hph : q.expectPhoto = true
      · rw [if_pos hph]
        exact ⟨rfl, rfl⟩
      · rw [if_neg hph, show pyStrip "NEXT" = "NEXT" from by decide, if_neg (hopt q hq),
          present_question_eq_of_some cat now s q hq]
        exact ⟨by rw [timer_resume_index], by rw [timer_resume_score]⟩

/-- Reachable session one answered question in: awaitingAdvance is set. -/
def sAdv : Session := step catTwoChoice 0 initSession (Event.callback "A")

/-- C8 witness: the amended theorem at concrete sessions: the advance
button moves an awaiting session from position 0 to 1, is a no-op on the
fresh session, a duplicate delivery is absorbed, and typed "NEXT" advances
once and never moves the position while not awaiting. -/
theorem advance_once_amended_witness :
    (stepCallback catTwoChoice 1 sAdv NEXT_BUTTON_DATA).index = sAdv.index + 1 ∧
    stepCallback catTwoChoice 1 initSession NEXT_BUTTON_DATA = initSession ∧
    stepCallback catTwoChoice 2 (stepCallback catTwoChoice 1 sAdv NEXT_BUTTON_DATA)
        NEXT_BUTTON_DATA =
      stepCallback catTwoChoice 1 sAdv NEXT_BUTTON_DATA ∧
    (stepText catTwoChoice 1 sAdv "NEXT").index = sAdv.index + 1 ∧
    (stepText catTwoChoice 1 initSession "NEXT").index = initSession.index :=
  ⟨((advance_once_amended catTwoChoice 1 2 sAdv
      (Reachable.step initSession 0 (Event.callback "A") Reachable.init)).1 (by decide)).1,
   (advance_once_amended catTwoChoice 1 2 initSession Reachable.init).2.1 (by decide),
   (advance_once_amended catTwoChoice 1 2 sAdv
      (Reachable.step initSession 0 (Event.callback "A") Reachable.init)).2.2.1,
   ((advance_once_amended catTwoChoice 1 2 sAdv
      (Reachable.step initSession 0 (Event.callback "A") Reachable.init)).2.2.2.1
      (by decide) (by decide)).1,
   ((advance_once_amended catTwoChoice 1 2 initSession Reachable.init).2.2.2.2
      (by decide) (by decide)
      (fun q hq => by
        have h0 : (get_active_questions catTwoChoice)[initSession.index]? = some qChoiceA := by
          decide
        rw [h0] at hq
        injection hq with h
        subst h
        decide)).1⟩

/-- Events the webhook treats as control signals: the advance and hint
buttons, the pre-run Ready / Start-Timer buttons (matched
case-insensitively on the payload), and the restart / hint / advance
free-text keywords (matched case-insensitively after stripping). -/
def signalLike : Event → Prop
  | Event.callback d => d = NEXT_BUTTON_DATA ∨ d = HINT_BUTTON_DATA ∨
      pyUpper d = "READY" ∨ pyUpper d = "START TIMER" ∨ pyUpper d = "START_TIMER"
  | Event.textMsg r => pyUpper (pyStrip r) = "/START" ∨ pyUpper (pyStrip r) = "START" ∨
      pyUpper (pyStrip r) = "HINT" ∨ pyUpper (pyStrip r) = "NEXT" ∨
      pyUpper (pyStrip r) = "NEXT QUESTION" ∨ pyUpper (pyStrip r) = "NEXT_QUESTION"
  | Event.photoMsg _ => False

instance instDecidableSignalLike (e : Event) : Decidable (signalLike e) :=
  match e with
  | Event.callback d => inferInstanceAs (Decidable (d = NEXT_BUTTON_DATA ∨ d = HINT_BUTTON_DATA ∨
      pyUpper d = "READY" ∨ pyUpper d = "START TIMER" ∨ pyUpper d = "START_TIMER"))
  | Event.textMsg r => inferInstanceAs (Decidable (pyUpper (pyStrip r) = "/START" ∨
      pyUpper (pyStrip r) = "START" ∨ pyUpper (pyStrip r) = "HINT" ∨
      pyUpper (pyStrip r) = "NEXT" ∨ pyUpper (pyStrip r) = "NEXT QUESTION" ∨
      pyUpper (pyStrip r) = "NEXT_QUESTION"))
  | Event.photoMsg _ => inferInstanceAs (Decidable False)

/-- C4 counterexample: with awaitingAdvance set (after answering question
0), the free text "START" — an input event that is neither an Advance nor a
Hint signal — resets the session: the phase changes from AwaitingAdvance to
AwaitingTeamName and the score is cleared, refuting "leaves position,
score, and phase unchanged". -/
theorem awaiting_advance_frame_cex :
    sAdv.awaitingNext = true ∧
    phase (step catTwoChoice 1 sAdv (Event.textMsg "START")) ≠ phase sAdv ∧
    (step catTwoChoice 1 sAdv (Event.textMsg "START")).score ≠ sAdv.score := by
  decide

/-- C4 (amended): in a reachable session that is in the in-quiz phase
(`state = None`) with awaitingAdvance set, every input event that is not an
Advance, Hint, Restart, Ready or Start-Timer signal leaves the position,
the score and the phase unchanged. -/
theorem awaiting_advance_frame_amended :
    ∀ (cat : Catalog) (now : Int) (s : Session) (e : Event), Reachable cat s →
    s.awaitingNext = true → s.state = none → ¬ signalLike e →
    (step cat now s e).index = s.index ∧
    (step cat now s e).score = s.score ∧
    phase (step cat now s e) = phase s := by
  intro cat now s e hr hn hst hex
  have hinv := reachable_sessInv hr
  suffices h : (step cat now s e).index = s.index ∧ (step cat now s e).score = s.score ∧
      (step cat now s e).state = s.state ∧ (step cat now s e).awaitingNext = s.awaitingNext by
    refine ⟨h.1, h.2.1, ?_⟩
    unfold phase
    rw [h.2.2.1, h.2.2.2]
  cases e with
  | callback d =>
    simp only [signalLike, not_or] at hex
    obtain ⟨hx1, hx2, hx3, hx4, hx5⟩ := hex
    show (stepCallback cat now s d).index = s.index ∧ (stepCallback cat now s d).score = s.score ∧
      (stepCallback cat now s d).state = s.state ∧
      (stepCallback cat now s d).awaitingNext = s.awaitingNext
    unfold stepCallback
    by_cases hd : d = ""
    · rw [if_pos hd]
      exact ⟨rfl, rfl, rfl, rfl⟩
    · rw [if_neg hd, if_neg hx3, if_neg (by simp [hx4, hx5])]
      by_cases hph : d = PHOTO_BUTTON_DATA
      · rw [if_pos hph]
        cases hq : (get_active_questions cat)[s.index]? with
        | none => exact ⟨rfl, rfl, rfl, rfl⟩
        | some q =>
          dsimp only
          split
          · exact ⟨rfl, rfl, rfl, rfl⟩
          · exact ⟨rfl, rfl, rfl, rfl⟩
      · rw [if_neg hph, if_neg hx1, if_neg hx2, if_pos hn]
        exact ⟨rfl, rfl, rfl, rfl⟩
  | textMsg r =>
    simp only [signalLike, not_or] at hex
    obtain ⟨ht1, ht2, ht3, ht4, ht5, ht6⟩ := hex
    show (stepText cat now s r).index = s.index ∧ (stepText cat now s r).score = s.score ∧
      (stepText cat now s r).state = s.state ∧ (stepText cat now s r).awaitingNext = s.awaitingNext
    unfold stepText
    dsimp only
    rw [if_neg (by simp [ht1, ht2]), if_neg (by simp [hst]), if_neg (by simp [hst]), if_neg ht3,
      if_neg (by simp [ht4, ht5, ht6]), if_neg (by simp [hst])]
    by_cases hne : pyStrip r ≠ ""
    · rw [if_pos hne]
      cases hq : (get_active_questions cat)[s.index]? with
      | none => exact ⟨rfl, rfl, rfl, rfl⟩
      | some q =>
        dsimp only
        rw [if_pos hn]
        exact ⟨rfl, rfl, rfl, rfl⟩
    · rw [if_neg hne]
      exact ⟨rfl, rfl, rfl, rfl⟩
  | photoMsg f =>
    show (photo_step cat now s f).1.index = s.index ∧ (photo_step cat now s f).1.score = s.score ∧
      (photo_step cat now s f).1.state = s.state ∧
      (photo_step cat now s f).1.awaitingNext = s.awaitingNext
    unfold photo_step
    cases hq : (get_active_questions cat)[s.index]? with
    | none => exact ⟨rfl, rfl, rfl, rfl⟩
    | some q =>
      dsimp only
      by_cases hph : q.expectPhoto = true
      · rw [if_pos hph]
        cases f with
        | none => exact ⟨rfl, rfl, rfl, rfl⟩
        | some fi =>
          dsimp only
          rw [apply_ite Prod.fst]
          dsimp only
          have haw : s.index ∈ s.photoAwardedFor :=
            hinv.2.2.2.2 hn (by rw [expectPhotoAt_eq hq]; exact hph)
          have hlt : s.index + 1 < activeTotal cat := hinv.2.2.1 hn
          rw [if_pos haw]
          by_cases hexp : s.index ∈ s.expSentFor
          · rw [if_pos hexp, if_neg (by omega)]
            refine ⟨by rw [timer_pause_index], by rw [timer_pause_score],
              by rw [timer_pause_state], ?_⟩
            rw [timer_pause_awaitingNext]
            exact hn.symm
          · rw [if_neg hexp, if_neg (by omega)]
            refine ⟨by rw [timer_pause_index], by rw [timer_pause_score],
              by rw [timer_pause_state], ?_⟩
            rw [timer_pause_awaitingNext]
            exact hn.symm
      · rw [if_neg hph]
        exact ⟨rfl, rfl, rfl, rfl⟩

/-- C4 witness: the amended frame property at a concrete reachable awaiting
session, for an ordinary free-text event. -/
theorem awaiting_advance_frame_amended_witness :
    (step catTwoChoice 1 sAdv (Event.textMsg "hello")).index = sAdv.index ∧
    (step catTwoChoice 1 sAdv (Event.textMsg "hello")).score = sAdv.score ∧
    phase (step catTwoChoice 1 sAdv (Event.textMsg "hello")) = phase sAdv :=
  awaiting_advance_frame_amended catTwoChoice 1 sAdv (Event.textMsg "hello")
    (Reachable.step initSession 0 (Event.callback "A") Reachable.init)
    (by decide) (by decide) (by decide)

/-- C5 counterexample: the callback payload "ZZZ" is not among the current
Choice question's options, yet the callback path hands it straight to the
answer handler: the session moves to AwaitingAdvance (treated as a wrong
answer) instead of being re-prompted with no state change — button answers
are not subjected to the options-membership check. -/
theorem answer_matching_cex :
    ("ZZZ" ∈ qChoiceA.options) = False ∧
    initSession.awaitingNext = false ∧
    (stepCallback catTwoChoice 0 initSession "ZZZ").awaitingNext = true := by
  refine ⟨by simp [qChoiceA], by decide, by decide⟩

/-- C5 (amended): the free-text command keywords are matched
case-insensitively (START anywhere, READY in the ready gate, HINT in the
in-quiz phase, START TIMER in the timer gate, NEXT while awaiting advance);
a free-text answer in the in-quiz phase at a Choice question is routed to
the answer handler exactly when it verbatim (case-sensitively) equals one
of the options and otherwise only re-presents the question, leaving
position, score, state and the advance flag unchanged; the answer handler
increments the score exactly when the accepted text equals the correct
answer.  Button answers bypass the membership check (see the
counterexample). -/
theorem answer_matching_amended :
    (∀ (cat : Catalog) (now : Int) (s : Session) (raw : String),
      pyUpper (pyStrip raw) = "/START" ∨ pyUpper (pyStrip raw) = "START" →
      stepText cat now s raw = startResetSession) ∧
    (∀ (cat : Catalog) (now : Int) (s : Session) (raw : String),
      s.state = some Pre.awaitingReady → pyUpper (pyStrip raw) = "READY" →
      stepText cat now s raw =
        { { s with state := none, index := 0 } with state := some Pre.awaitingTimer }) ∧
    (∀ (cat : Catalog) (now : Int) (s : Session) (raw : String),
      s.state = none → pyUpper (pyStrip raw) = "HINT" →
      stepText cat now s raw = (hint_step cat s).1) ∧
    (∀ (cat : Catalog) (now : Int) (s : Session) (raw : String),
      s.state = some Pre.awaitingTimer → pyUpper (pyStrip raw) = "START TIMER" →
      stepText cat now s raw =
        present_question cat now { s with startedAt := some now, state := none }) ∧
    (∀ (cat : Catalog) (now : Int) (s : Session) (raw : String),
      s.state = none → s.awaitingNext = true → pyUpper (pyStrip raw) = "NEXT" →
      stepText cat now s raw = stepText cat now s "NEXT") ∧
    (∀ (cat : Catalog) (now : Int) (s : Session) (raw : String) (q : Question),
      s.state = none → s.awaitingNext = false →
      (get_active_questions cat)[s.index]? = some q → q.expectPhoto = false →
      pyStrip raw ≠ "" →
      pyUpper (pyStrip raw) ≠ "/START" → pyUpper (pyStrip raw) ≠ "START" →
      pyUpper (pyStrip raw) ≠ "HINT" →
      ((pyStrip raw ∈ q.options →
        stepText cat now s raw = handle_answer cat now (pyStrip raw) s) ∧
       (pyStrip raw ∉ q.options →
        (stepText cat now s raw).index = s.index ∧
        (stepText cat now s raw).score = s.score ∧
        (stepText cat now s raw).state = s.state ∧
        (stepText cat now s raw).awaitingNext = false))) ∧
    (∀ (cat : Catalog) (now : Int) (sel : String) (s : Session) (q : Question),
      (get_active_questions cat)[s.index]? = some q → q.expectPhoto = false →
      s.index + 1 < activeTotal cat →
      (handle_answer cat now sel s).score =
        s.score + (if sel = q.answer then 1 else 0)) := by
  refine ⟨?_, ?_, ?_, ?_, ?_, ?_, ?_⟩
  · intro cat now s raw h
    unfold stepText
    dsimp only
    rw [if_pos h]
  · intro cat now s raw hst h
    unfold stepText
    dsimp only
    rw [if_neg (by simp [h]), if_neg (by simp [hst]), if_pos hst, if_pos h]
  · intro cat now s raw hst h
    unfold stepText
    dsimp only
    rw [if_neg (by simp [h]), if_neg (by simp [hst]), if_neg (by simp [hst]), if_pos h]
  · intro cat now s raw hst h
    unfold stepText
    dsimp only
    rw [if_neg (by simp [h]), if_neg (by simp [hst]), if_neg (by simp [hst]),
      if_neg (by simp [h]), if_neg (by simp [h]), if_pos ⟨hst, Or.inl h⟩]
  · intro cat now s raw hst hn h
    rw [next_text_adv raw hst hn (Or.inl h), next_text_adv "NEXT" hst hn (Or.inl (by decide))]
  · intro cat now s raw q hst hf hq hph hne h1 h2 h3
    unfold stepText
    dsimp only
    rw [if_neg (by simp [h1, h2]), if_neg (by simp [hst]), if_neg (by simp [hst]), if_neg h3,
      if_neg (by simp [hf]), if_neg (by simp [hst]), if_pos hne, hq]
    dsimp only
    rw [if_neg (by simp [hf]), if_neg (by simp [hph])]
    constructor
    · intro hm
      rw [if_pos hm]
    · intro hm
      rw [if_neg hm, present_question_eq_of_some cat now s q hq]
      exact ⟨by rw [timer_resume_index], by rw [timer_resume_score],
        by rw [timer_resume_state], by rw [timer_resume_awaitingNext]⟩
  · intro cat now sel s q hq hph hlt
    unfold handle_answer
    rw [hq]
    dsimp only
    rw [if_neg (by simp [hph])]
    by_cases hsel : sel = q.answer
    · rw [if_pos hsel, if_neg (Nat.not_le.mpr hlt), timer_pause_score, if_pos hsel]
    · rw [if_neg hsel, if_neg (Nat.not_le.mpr hlt), timer_pause_score, if_neg hsel]
      simp

/-- C5 witness: the amended theorem at concrete inputs: lowercase "start"
and "hint" hit their keyword branches, the verbatim option "A" is routed to
the answer handler, the lowercase non-option "a" only re-presents the
question, and an accepted wrong option leaves the score as computed by the
correctness comparison. -/
theorem answer_matching_amended_witness :
    stepText catTwoChoice 0 initSession "start" = startResetSession ∧
    stepText catTwoChoice 0 initSession "hint" = (hint_step catTwoChoice initSession).1 ∧
    stepText catTwoChoice 0 initSession "A" = handle_answer catTwoChoice 0 "A" initSession ∧
    ((stepText catTwoChoice 0 initSession "a").index = initSession.index ∧
      (stepText catTwoChoice 0 initSession "a").score = initSession.score ∧
      (stepText catTwoChoice 0 initSession "a").state = initSession.state ∧
      (stepText catTwoChoice 0 initSession "a").awaitingNext = false) ∧
    (handle_answer catTwoChoice 0 "B" initSession).score =
      initSession.score + (if "B" = qChoiceA.answer then 1 else 0) :=
  ⟨answer_matching_amended.1 catTwoChoice 0 initSession "start" (Or.inr (by decide)),
   answer_matching_amended.2.2.1 catTwoChoice 0 initSession "hint" (by decide) (by decide),
   (answer_matching_amended.2.2.2.2.2.1 catTwoChoice 0 initSession "A" qChoiceA
      (by decide) (by decide) (by decide) (by decide) (by decide) (by decide) (by decide)
      (by decide)).1 (by decide),
   (answer_matching_amended.2.2.2.2.2.1 catTwoChoice 0 initSession "a" qChoiceA
      (by decide) (by decide) (by decide) (by decide) (by decide) (by decide) (by decide)
      (by decide)).2 (by decide),
   answer_matching_amended.2.2.2.2.2.2 catTwoChoice 0 "B" initSession qChoiceA
      (by decide) (by decide) (by decide)⟩

/-- Folds a sequence of photo uploads (each with its clock reading and file
id) through the photo branch of the webhook, concatenating the emitted
output tags. -/
def photosRun (cat : Catalog) : Session → List (Int × String) → Session × List PhotoOut
  | s, [] => (s, [])
  | s, (t, f) :: rest =>
    let r := photo_step cat t s (some f)
    let r2 := photosRun cat r.1 rest
    (r2.1, r.2 ++ r2.2)

lemma photo_step_first {cat : Catalog} {s : Session} {q : Question} (t : Int) (f : String)
    (hq : (get_active_questions cat)[s.index]? = some q) (hph : q.expectPhoto = true)
    (hlt : s.index + 1 < activeTotal cat) (hnaw : s.index ∉ s.photoAwardedFor) :
    (photo_step cat t s (some f)).1.score = s.score + 1 ∧
    (photo_step cat t s (some f)).1.index = s.index ∧
    (photo_step cat t s (some f)).1.photoAwardedFor = insert s.index s.photoAwardedFor ∧
    s.index ∈ (photo_step cat t s (some f)).1.expSentFor ∧
    (photo_step cat t s (some f)).1.awaitingNext = true ∧
    (photo_step cat t s (some f)).1.timeSegmentStarted = none ∧
    (photo_step cat t s (some f)).2.count PhotoOut.adminForward = 1 ∧
    (photo_step cat t s (some f)).2.count PhotoOut.awarded = 1 ∧
    (photo_step cat t s (some f)).2.count PhotoOut.received = 0 := by
  unfold photo_step
  rw [hq]
  try dsimp only
  rw [if_pos hph]
  try dsimp only
  rw [if_neg hnaw, if_pos hnaw]
  try dsimp only
  by_cases hexp : s.index ∈ s.expSentFor
  · rw [if_pos hexp, if_neg (not_not_intro hexp), if_neg (Nat.not_le.mpr hlt)]
    refine ⟨by rw [timer_pause_score], by rw [timer_pause_index],
      by rw [timer_pause_photoAwardedFor], ?_, by rw [timer_pause_awaitingNext],
      timer_pause_seg t _, rfl, rfl, rfl⟩
    rw [timer_pause_expSentFor]
    exact hexp
  · rw [if_neg hexp, if_pos hexp, if_neg (Nat.not_le.mpr hlt)]
    refine ⟨by rw [timer_pause_score], by rw [timer_pause_index],
      by rw [timer_pause_photoAwardedFor], ?_, by rw [timer_pause_awaitingNext],
      timer_pause_seg t _, rfl, rfl, rfl⟩
    rw [timer_pause_expSentFor]
    exact Finset.mem_insert_self _ _

lemma photo_step_repeat {cat : Catalog} {s : Session} {q : Question} (t : Int) (f : String)
    (hq : (get_active_questions cat)[s.index]? = some q) (hph : q.expectPhoto = true)
    (hlt : s.index + 1 < activeTotal cat) (haw : s.index ∈ s.photoAwardedFor)
    (hexp : s.index ∈ s.expSentFor) (hn : s.awaitingNext = true)
    (hts : s.timeSegmentStarted = none) :
    photo_step cat t s (some f) =
      (s, [PhotoOut.adminForward, PhotoOut.received, PhotoOut.nextPrompt]) := by
  obtain ⟨i, sc, tn, st, sa, ps, hu, an, ap, pa, ex, ta, ts⟩ := s
  dsimp only at hq haw hexp hn hts hlt
  subst hn
  subst hts
  unfold photo_step
  rw [hq]
  try dsimp only
  rw [if_pos hph]
  try dsimp only
  rw [if_pos haw, if_neg (not_not_intro haw), if_pos hexp, if_neg (not_not_intro hexp),
    if_neg (Nat.not_le.mpr hlt)]
  rfl

lemma photosRun_fixed {cat : Catalog} {s : Session} {q : Question}
    (hq : (get_active_questions cat)[s.index]? = some q) (hph : q.expectPhoto = true)
    (hlt : s.index + 1 < activeTotal cat) (haw : s.index ∈ s.photoAwardedFor)
    (hexp : s.index ∈ s.expSentFor) (hn : s.awaitingNext = true)
    (hts : s.timeSegmentStarted = none) :
    ∀ l : List (Int × String), (photosRun cat s l).1 = s ∧
      (photosRun cat s l).2.count PhotoOut.adminForward = l.length ∧
      (photosRun cat s l).2.count PhotoOut.awarded = 0 ∧
      (photosRun cat s l).2.count PhotoOut.received = l.length := by
  intro l
  induction l with
  | nil => simp [photosRun]
  | cons p rest ih =>
    obtain ⟨t, f⟩ := p
    show ((photosRun cat s ((t, f) :: rest)).1 = s ∧ _)
    unfold photosRun
    rw [photo_step_repeat t f hq hph hlt haw hexp hn hts]
    dsimp only
    refine ⟨ih.1, ?_, ?_, ?_⟩ <;>
      simp [List.count_append, List.count_cons, ih.2.1, ih.2.2.1, ih.2.2.2]

/-- C2 counterexample: at the final photo position (catalog of one photo
question) every upload completes the run and resets the session, so a
second upload of the same position is scored again: two uploads emit the
"point awarded" acknowledgment twice and the "received" variant never —
refuting "the first accepted submission increments score, later submissions
emit a differently worded received acknowledgment without re-scoring". -/
theorem photo_award_once_cex :
    (photosRun catOnePhoto initSession [(0, "f"), (1, "g")]).2.count PhotoOut.awarded = 2 ∧
    (photosRun catOnePhoto initSession [(0, "f"), (1, "g")]).2.count PhotoOut.received = 0 := by
  decide

/-- C2 (amended): at a non-final photo position (position + 1 < total) not
yet awarded, a sequence of M ≥ 1 uploads increments the score exactly once,
keeps the session at the same position, records the award, forwards every
upload to the admin collaborator (M notifications), acknowledges the first
upload as awarded and every later one as received, and never decrements the
score at any intermediate point.  At the final photo position each upload
completes and resets the run instead (see the counterexample). -/
theorem photo_award_once_amended :
    ∀ (cat : Catalog) (s : Session) (t : Int) (f : String) (l : List (Int × String))
      (q : Question),
    (get_active_questions cat)[s.index]? = some q → q.expectPhoto = true →
    s.index + 1 < activeTotal cat → s.index ∉ s.photoAwardedFor →
    (photosRun cat s ((t, f) :: l)).1.score = s.score + 1 ∧
    (photosRun cat s ((t, f) :: l)).1.index = s.index ∧
    s.index ∈ (photosRun cat s ((t, f) :: l)).1.photoAwardedFor ∧
    (photosRun cat s ((t, f) :: l)).2.count PhotoOut.adminForward = l.length + 1 ∧
    (photosRun cat s ((t, f) :: l)).2.count PhotoOut.awarded = 1 ∧
    (photosRun cat s ((t, f) :: l)).2.count PhotoOut.received = l.length ∧
    (∀ l1 l2, (t, f) :: l = l1 ++ l2 → s.score ≤ (photosRun cat s l1).1.score) := by
  intro cat s t f l q hq hph hlt hnaw
  obtain ⟨g1, g2, g3, g4, g5, g6, g7, g8, g9⟩ := photo_step_first t f hq hph hlt hnaw
  have hq1 : (get_active_questions cat)[(photo_step cat t s (some f)).1.index]? = some q := by
    rw [g2]; exact hq
  have hlt1 : (photo_step cat t s (some f)).1.index + 1 < activeTotal cat := by
    rw [g2]; exact hlt
  have haw1 : (photo_step cat t s (some f)).1.index ∈
      (photo_step cat t s (some f)).1.photoAwardedFor := by
    rw [g2, g3]; exact Finset.mem_insert_self _ _
  have hexp1 : (photo_step cat t s (some f)).1.index ∈
      (photo_step cat t s (some f)).1.expSentFor := by
    rw [g2]; exact g4
  have hfix := photosRun_fixed hq1 hph hlt1 haw1 hexp1 g5 g6
  have hrun : photosRun cat s ((t, f) :: l) =
      ((photosRun cat (photo_step cat t s (some f)).1 l).1,
        (photo_step cat t s (some f)).2 ++
          (photosRun cat (photo_step cat t s (some f)).1 l).2) := rfl
  rw [hrun]
  refine ⟨?_, ?_, ?_, ?_, ?_, ?_, ?_⟩
  · dsimp only
    rw [(hfix l).1, g1]
  · dsimp only
    rw [(hfix l).1, g2]
  · dsimp only
    rw [(hfix l).1, g3]
    exact Finset.mem_insert_self _ _
  · dsimp only
    rw [List.count_append, g7, (hfix l).2.1]
    omega
  · dsimp only
    rw [List.count_append, g8, (hfix l).2.2.1]
  · dsimp only
    rw [List.count_append, g9, (hfix l).2.2.2]
    omega
  · intro l1 l2 heq
    cases l1 with
    | nil => exact Nat.le_refl _
    | cons p l1t =>
      obtain ⟨t2, f2⟩ := p
      have hp1 : (t, f) = (t2, f2) := by injection heq
      rw [← hp1]
      have h1 : (photosRun cat s ((t, f) :: l1t)).1 =
          (photosRun cat (photo_step cat t s (some f)).1 l1t).1 := rfl
      rw [h1, (hfix l1t).1, g1]
      exact Nat.le_add_right _ 1

/-- C2 witness: the amended theorem at a concrete two-upload run on a
catalog whose photo question is followed by a choice question, plus the
intermediate-score conjunct instantiated at the one-upload split. -/
theorem photo_award_once_amended_witness :
    (photosRun catPhotoChoice initSession ((0, "u1") :: [(1, "u2")])).1.score =
      initSession.score + 1 ∧
    (photosRun catPhotoChoice initSession ((0, "u1") :: [(1, "u2")])).2.count
      PhotoOut.adminForward = 2 ∧
    (photosRun catPhotoChoice initSession ((0, "u1") :: [(1, "u2")])).2.count
      PhotoOut.awarded = 1 ∧
    (photosRun catPhotoChoice initSession ((0, "u1") :: [(1, "u2")])).2.count
      PhotoOut.received = 1 ∧
    initSession.score ≤ (photosRun catPhotoChoice initSession [(0, "u1")]).1.score :=
  ⟨(photo_award_once_amended catPhotoChoice initSession 0 "u1" [(1, "u2")] qPhoto
      (by decide) (by decide) (by decide) (by decide)).1,
   (photo_award_once_amended catPhotoChoice initSession 0 "u1" [(1, "u2")] qPhoto
      (by decide) (by decide) (by decide) (by decide)).2.2.2.1,
   (photo_award_once_amended catPhotoChoice initSession 0 "u1" [(1, "u2")] qPhoto
      (by decide) (by decide) (by decide) (by decide)).2.2.2.2.1,
   (photo_award_once_amended catPhotoChoice initSession 0 "u1" [(1, "u2")] qPhoto
      (by decide) (by decide) (by decide) (by decide)).2.2.2.2.2.1,
   (photo_award_once_amended catPhotoChoice initSession 0 "u1" [(1, "u2")] qPhoto
      (by decide) (by decide) (by decide) (by decide)).2.2.2.2.2.2
      [(0, "u1")] [(1, "u2")] rfl⟩
